import Mathlib

/-!
Verification model of the removable-media lifecycle manager of
`audio_repeater.py` (class `RemovableMediaManager`).

The Python methods are shallowly embedded as Lean functions:

* filesystem and partition queries go through an explicit `World` value,
  a flat path-indexed store plus the `psutil` partition table;
* a Python exception is an `Except.error` value; a `try/except` block is a
  `match` whose error arm builds the Python handler's return value;
* callback notifications (`self.callback(...)` / `self._notify_callback`)
  are collected into explicit event lists — a `None` callback in Python
  merely drops the same events, so claims about the emitted stream are
  stated over the collected list;
* the mutable manager object (`known_drives`, `batch_mode`, `source_file`,
  `processing_drives`, `completed_drives`, `auto_process_queue`) becomes an
  explicit `MgrState` record threaded through the functions;
* the four workflow stages are split at their suspension points into
  resumption functions (`wf_from_copy`, `wf_from_verify`,
  `wf_from_finalize`) so that an interleaved mutation of the shared state
  (for example `set_batch_mode` from the GUI thread) can be interposed
  between stages; `process_drive_workflow` is their sequential composition.

Message formatting is kept verbatim where a claim depends on it; float
formatting of sizes (MB with one decimal) is abstracted to the byte count.
-/

namespace AudioRepeater

/-- `os.path.join`, with the platform separator abstracted to `/`. -/
def pjoin (a b : String) : String := a ++ "/" ++ b

/-- `os.path.basename` on `/`-separated paths. -/
def basename (p : String) : String := (p.splitOn ("/")).getLastD ("")

/-- Python truthiness of an `Optional[str]`: `None` and `""` are falsy. -/
def optTruthy : Option String → Bool
  | none => false
  | some s => !(decide (s = ""))

/-- A filesystem node: a regular file with a byte size, a directory with the
names of its direct entries, or a `broken` node (for example a dangling link)
that `os.path.isfile` and `os.path.isdir` both reject.  `locked` makes
deletion of the node raise (permissions, file in use). -/
inductive Node where
  | file (size : Nat) (locked : Bool)
  | dir (entries : List String) (readable : Bool) (locked : Bool)
  | broken
deriving DecidableEq

/-- One `psutil` partition record, reduced to the fields the program reads:
`device`, `mountpoint`, and whether `'removable' in partition.opts`. -/
structure Partition where
  device : String
  mountpoint : String
  opts_removable : Bool
deriving DecidableEq

/-- The behaviour of one `shutil.copy2` call: faithful copy, truncated
result, target missing afterwards, or an exception. -/
inductive CopyFault where
  | fine
  | truncate (k : Nat)
  | vanish
  | fail (msg : String)

/-- The outside world: a flat path-indexed filesystem, the partition table,
and the behaviour of copies. -/
structure World where
  fs : List (String × Node)
  parts : List Partition
  copyFault : String → String → CopyFault

/-- Look a full path up in the store. -/
def lookupFS (w : World) (p : String) : Option Node :=
  (w.fs.find? (fun x => decide (x.1 = p))).map (fun x => x.2)

/-- `os.path.exists` — total, never raises. -/
def pexists (w : World) (p : String) : Bool :=
  match lookupFS w p with
  | some Node.broken => false
  | some _ => true
  | none => false

/-- `os.path.isfile`. -/
def isfile (w : World) (p : String) : Bool :=
  match lookupFS w p with
  | some (Node.file _ _) => true
  | _ => false

/-- `os.path.isdir`. -/
def isdir (w : World) (p : String) : Bool :=
  match lookupFS w p with
  | some (Node.dir _ _ _) => true
  | _ => false

/-- `os.path.getsize`: the byte size of a file (a directory stats too, with
a nominal size), an exception for a missing path. -/
def getsize (w : World) (p : String) : Except String Nat :=
  match lookupFS w p with
  | some (Node.file n _) => .ok n
  | some (Node.dir _ _ _) => .ok 0
  | _ => .error ("找不到檔案：" ++ p)

/-- `os.path.getsize` applied to a dynamically-typed argument that may be
Python `None` (then `os.stat` raises a `TypeError`). -/
def getsizeOpt (w : World) (p : Option String) : Except String Nat :=
  match p with
  | none => .error ("stat: path should be string, not NoneType")
  | some q => getsize w q

/-- `os.listdir`: the stored entry names of a readable directory, an
exception otherwise. -/
def listdir (w : World) (p : String) : Except String (List String) :=
  match lookupFS w p with
  | some (Node.dir entries readable _) =>
      if readable then .ok entries else .error ("無法存取：" ++ p)
  | some _ => .error ("不是資料夾：" ++ p)
  | none => .error ("找不到路徑：" ++ p)

/-- Remove the node stored at a full path (no parent-entry bookkeeping). -/
def removeKey (w : World) (p : String) : World :=
  {w with fs := w.fs.filter (fun x => !(decide (x.1 = p)))}

/-- Drop one name from a directory node's entry list. -/
def dropDirEntry (n : Node) (item : String) : Node :=
  match n with
  | Node.dir es r l => Node.dir (es.filter (fun e => !(decide (e = item)))) r l
  | other => other

/-- Delete a direct child of `drive`: remove its node and take its name out
of the drive's entry list (the effect of `os.remove`/`shutil.rmtree` on a
direct entry of the mount root). -/
def deleteChild (w : World) (drive item : String) : World :=
  let w1 := removeKey w (pjoin drive item)
  {w1 with fs := w1.fs.map (fun x =>
    if decide (x.1 = drive) then (x.1, dropDirEntry x.2 item) else x)}

/-- Store a fresh unlocked file node at a full path. -/
def setFile (w : World) (p : String) (n : Nat) : World :=
  {w with fs := (p, Node.file n false) :: (removeKey w p).fs}

/-- `shutil.copy2 src tgt`: raises when the source is not a regular file;
otherwise the world's `copyFault` decides whether the target ends up
faithful, truncated, missing, or the call raises.  Directory listings after
a copy are outside the modelled flows, so the parent entry list is not
updated. -/
def copy2 (w : World) (src tgt : String) : Except String World :=
  match lookupFS w src with
  | some (Node.file n _) =>
      match w.copyFault src tgt with
      | CopyFault.fine => .ok (setFile w tgt n)
      | CopyFault.truncate k => .ok (setFile w tgt k)
      | CopyFault.vanish => .ok (removeKey w tgt)
      | CopyFault.fail m => .error m
  | _ => .error ("找不到檔案：" ++ src)

/-- The event types of `_notify_callback` / the `clear_drive` callback. -/
inductive EventType where
  | start | progress | info | warning | complete | error
deriving DecidableEq

/-- One callback notification: `(event_type, message)`. -/
structure Event where
  etype : EventType
  msg : String
deriving DecidableEq

/-- The mutable fields of `RemovableMediaManager`, as an explicit record. -/
structure MgrState where
  known_drives : Finset String
  batch_mode : Bool
  source_file : Option String
  processing_drives : Finset String
  completed_drives : Finset String
  auto_process_queue : List String

/-- `is_removable_drive`: scan the partition table for the first partition
with this device and report its removable flag; `False` when none matches. -/
def is_removable_drive (w : World) (device : String) : Bool :=
  match w.parts.find? (fun p => decide (p.device = device)) with
  | some p => p.opts_removable
  | none => false

/-- `_is_removable_partition`: `'removable' in partition.opts or
self.is_removable_drive(partition.device)`. -/
def is_removable_partition (w : World) (p : Partition) : Bool :=
  p.opts_removable || is_removable_drive w p.device

/-- `_get_current_removable_drives`: the set of removable devices. -/
def get_current_removable_drives (w : World) : Finset String :=
  ((w.parts.filter (fun p => is_removable_partition w p)).map
    (fun p => p.device)).toFinset

/-- `_get_drive_path`: the mountpoint of the first partition with this
device, `None` when the device is gone. -/
def get_drive_path (w : World) (device : String) : Option String :=
  (w.parts.find? (fun p => decide (p.device = device))).map (fun p => p.mountpoint)

/-- `_should_process_drive`: the re-trigger guard — process only a drive in
neither `processing_drives` nor `completed_drives`. -/
def should_process_drive (s : MgrState) (d : String) : Bool :=
  decide (d ∉ s.processing_drives) && decide (d ∉ s.completed_drives)

/-- `set_batch_mode`: record the flag and source file; when disabling, clear
`processing_drives`, `completed_drives` and `auto_process_queue`. -/
def set_batch_mode (s : MgrState) (enabled : Bool) (source_file : Option String) :
    MgrState :=
  let s1 := {s with batch_mode := enabled, source_file := source_file}
  if enabled then s1
  else {s1 with processing_drives := ∅, completed_drives := ∅,
                auto_process_queue := []}

/-- `_detect_drive_changes`: `(current − known, known − current)`. -/
def detect_drive_changes (s : MgrState) (current : Finset String) :
    Finset String × Finset String :=
  (current \ s.known_drives, s.known_drives \ current)

/-- One iteration of the `for drive in new_drives` loop of
`_handle_drive_changes`: when the guard passes, append the drive to the
auto-process queue and record it as started (the spawned worker thread). -/
def hdc_step (acc : MgrState × List String) (d : String) : MgrState × List String :=
  if should_process_drive acc.1 d = true then
    ({acc.1 with auto_process_queue := acc.1.auto_process_queue ++ [d]}, acc.2 ++ [d])
  else acc

/-- `_handle_drive_changes`: nothing happens unless batch mode is on, the
inserted set is non-empty and the source file is truthy; otherwise each new
drive passing `_should_process_drive` is queued and a workflow is started
for it.  Returns the new state and the list of started drives. -/
def handle_drive_changes (s : MgrState) (new_drives : Finset String) :
    MgrState × List String :=
  if s.batch_mode = true ∧ new_drives.Nonempty ∧ optTruthy s.source_file = true then
    (new_drives.sort (fun a b => a ≤ b)).foldl hdc_step (s, [])
  else (s, [])

/-- One cycle of `_monitor_loop`: enumerate, diff, and when something
changed replace `known_drives` wholesale and run `_handle_drive_changes`.
Returns the state, the inserted set, the removed set and the started
drives. -/
def monitor_cycle (w : World) (s : MgrState) :
    MgrState × Finset String × Finset String × List String :=
  let current := get_current_removable_drives w
  let nd := (detect_drive_changes s current).1
  let rd := (detect_drive_changes s current).2
  if nd ≠ ∅ ∨ rd ≠ ∅ then
    let s1 := {s with known_drives := current}
    let p := handle_drive_changes s1 nd
    (p.1, nd, rd, p.2)
  else (s, nd, rd, [])

/-- `_categorize_items`: split entry names into files and folders (an entry
that is neither lands in neither list). -/
def categorize_items (w : World) (drive : String) (items : List String) :
    List String × List String :=
  (items.filter (fun i => isfile w (pjoin drive i)),
   items.filter (fun i => isdir w (pjoin drive i)))

/-- `_format_item_list`: up to five names, then a truncation marker. -/
def format_item_list (items : List String) (item_type : String) : String :=
  if items.length ≤ 5 then item_type ++ "：" ++ String.intercalate (", ") items
  else item_type ++ "：" ++ String.intercalate (", ") (items.take 5) ++
       " ...（還有" ++ toString (items.length - 5) ++ "個）"

/-- `_report_scan_results`: the scan summary events. -/
def report_scan_results (w : World) (drive : String) (items : List String) :
    List Event :=
  let c := categorize_items w drive items
  [⟨EventType.info, "掃描完成：找到 " ++ toString c.1.length ++ " 個檔案，" ++
      toString c.2.length ++ " 個資料夾（共 " ++
      toString (c.1.length + c.2.length) ++ " 項）"⟩] ++
  (if c.1.isEmpty then [] else [⟨EventType.info, format_item_list c.1 ("檔案")⟩]) ++
  (if c.2.isEmpty then [] else [⟨EventType.info, format_item_list c.2 ("資料夾")⟩]) ++
  [⟨EventType.info, "開始清理..."⟩]

/-- `_scan_drive_items`: list the mount root, re-raising a listing failure
as `無法讀取磁碟機內容：...`; report scan results when non-empty. -/
def scan_drive_items (w : World) (drive : String) :
    Except String (List String × List Event) :=
  match listdir w drive with
  | .error e => .error ("無法讀取磁碟機內容：" ++ e)
  | .ok items =>
      .ok (items, if items.isEmpty then [] else report_scan_results w drive items)

/-- Result of `_delete_single_item`. -/
structure SingleDel where
  world : World
  ok : Bool
  events : List Event

/-- `_delete_single_item`: delete a file or folder entry, catching any
failure as a warning and `False`; an entry that is neither file nor folder
is reported as success without deleting anything. -/
def delete_single_item (w : World) (drive item : String) : SingleDel :=
  match lookupFS w (pjoin drive item) with
  | some (Node.file _ locked) =>
      if locked then ⟨w, false, [⟨EventType.warning, "無法刪除 " ++ item ++ "：PermissionError"⟩]⟩
      else ⟨deleteChild w drive item, true, [⟨EventType.progress, "已刪除檔案：" ++ item⟩]⟩
  | some (Node.dir _ _ locked) =>
      if locked then ⟨w, false, [⟨EventType.warning, "無法刪除 " ++ item ++ "：PermissionError"⟩]⟩
      else ⟨deleteChild w drive item, true, [⟨EventType.progress, "已刪除資料夾：" ++ item⟩]⟩
  | _ => ⟨w, true, []⟩

/-- Result of the deletion loop of `_delete_items`. -/
structure DelRes where
  world : World
  count : Nat
  failed : List String
  events : List Event

/-- The `for item in items` loop of `_delete_items`: count successes,
collect failed items. -/
def delete_loop (w : World) (drive : String) : List String → DelRes
  | [] => ⟨w, 0, [], []⟩
  | i :: rest =>
      let r1 := delete_single_item w drive i
      let r2 := delete_loop r1.world drive rest
      ⟨r2.world, (if r1.ok then 1 else 0) + r2.count,
       (if r1.ok then [] else [i]) ++ r2.failed, r1.events ++ r2.events⟩

/-- `_check_remaining_items`: re-list the mount root; warn when entries
remain; any listing failure yields `[]` silently. -/
def check_remaining_items (w : World) (drive : String) :
    List String × List Event :=
  match listdir w drive with
  | .error _ => ([], [])
  | .ok rem =>
      if rem.isEmpty then (rem, [])
      else
        let disp := String.intercalate (", ") (rem.take 3) ++
                    (if rem.length > 3 then ("...") else (""))
        (rem, [⟨EventType.warning,
                "仍有 " ++ toString rem.length ++ " 個項目未被刪除：" ++ disp⟩])

/-- Result of `clear_drive` / `_finalize_deletion`. -/
structure ClearRes where
  world : World
  ok : Bool
  msg : String
  events : List Event

/-- `_finalize_deletion`: re-check the drive, then report success
unconditionally (wipe is best-effort). -/
def finalize_deletion (w : World) (drive : String) (deleted total : Nat)
    (failed : List String) : ClearRes :=
  let evs1 := (check_remaining_items w drive).2
  let m := "清理完成：成功刪除 " ++ toString deleted ++ "/" ++ toString total ++
           " 個項目" ++
           (if failed.isEmpty then "" else "，失敗 " ++ toString failed.length ++ " 個")
  ⟨w, true, m, evs1 ++ [⟨EventType.complete, m⟩]⟩

/-- `_delete_items`: the loop followed by `_finalize_deletion`. -/
def delete_items (w : World) (drive : String) (items : List String) : ClearRes :=
  let r := delete_loop w drive items
  let f := finalize_deletion r.world drive r.count items.length r.failed
  ⟨f.world, f.ok, f.msg, r.events ++ f.events⟩

/-- `clear_drive`: validate the path (outside the `try`), scan, handle the
already-empty case, else delete everything; the `try/except` catches the
scan failure as `清理失敗：...`.  The `Except` layer is what the caller
would see escape; every branch returns `.ok`. -/
def clear_drive (w : World) (drive : String) : Except String ClearRes :=
  if pexists w drive = false then .ok ⟨w, false, "磁碟機不存在", []⟩
  else
    match scan_drive_items w drive with
    | .error e => .ok ⟨w, false, "清理失敗：" ++ e, []⟩
    | .ok r =>
        if r.1.isEmpty then
          .ok ⟨w, true, "磁碟機已經是空的",
               r.2 ++ [⟨EventType.info, "磁碟機 " ++ drive ++ " 已經是空的"⟩]⟩
        else
          let d := delete_items w drive r.1
          .ok ⟨d.world, d.ok, d.msg, r.2 ++ d.events⟩

/-- Result of `copy_file_to_drive` / `copy_body`. -/
structure CopyRes where
  world : World
  ok : Bool
  msg : String

/-- `_verify_copy`: the post-copy check inside `copy_file_to_drive`'s
`try` — target must exist and the byte sizes must agree. -/
def verify_copy (w : World) (src tgt : String) : Except String (Bool × String) :=
  if pexists w tgt = false then .ok (false, "檔案複製失敗")
  else
    match getsize w src with
    | .error e => .error e
    | .ok ss =>
        match getsize w tgt with
        | .error e => .error e
        | .ok ts =>
            if ss = ts then .ok (true, "檔案成功複製到 " ++ tgt)
            else .ok (false, "檔案複製不完整")

/-- The `try` body of `copy_file_to_drive` (the target filename
`filename or os.path.basename(source_file)` and the joined target path are
inlined at their use sites). -/
def copy_body (w : World) (source_file drive_path : String)
    (filename : Option String) : Except String CopyRes :=
  if pexists w source_file = false then .ok ⟨w, false, "源檔案不存在"⟩
  else if pexists w drive_path = false then .ok ⟨w, false, "目標磁碟機不存在"⟩
  else
    match copy2 w source_file
        (pjoin drive_path (filename.getD (basename source_file))) with
    | .error e => .error e
    | .ok w1 =>
        match verify_copy w1 source_file
            (pjoin drive_path (filename.getD (basename source_file))) with
        | .error e => .error e
        | .ok r => .ok ⟨w1, r.1, r.2⟩

/-- `copy_file_to_drive`: the `try` body with its catch-all handler
(`複製失敗：...`).  Every branch returns `.ok`. -/
def copy_file_to_drive (w : World) (source_file drive_path : String)
    (filename : Option String) : Except String CopyRes :=
  .ok (match copy_body w source_file drive_path filename with
       | .ok r => r
       | .error e => ⟨w, false, "複製失敗：" ++ e⟩)

/-- The `try` body of `verify_file`.  The source argument is dynamically
typed in Python and may be `None` at runtime (see `set_batch_mode`). -/
def verify_body (w : World) (source_file : Option String) (target_file : String) :
    Except String (Bool × String) :=
  if pexists w target_file = false then .ok (false, "目標檔案不存在")
  else
    match getsizeOpt w source_file with
    | .error e => .error e
    | .ok ss =>
        match getsize w target_file with
        | .error e => .error e
        | .ok ts =>
            if ss = ts then .ok (true, "檔案驗證成功")
            else .ok (false, "檔案大小不符：原檔 " ++ toString ss ++
                             " bytes，目標檔 " ++ toString ts ++ " bytes")

/-- `verify_file`: the `try` body with its catch-all handler
(`驗證失敗：...`).  Every branch returns `.ok`. -/
def verify_file (w : World) (source_file : Option String) (target_file : String) :
    Except String (Bool × String) :=
  .ok (match verify_body w source_file target_file with
       | .ok r => r
       | .error e => (false, "驗證失敗：" ++ e))

/-- How one workflow step ends: pass (with a payload), stage failure, or an
uncaught Python exception escaping to `_auto_process_drive`'s handler. -/
inductive StepExit (α : Type) where
  | pass (a : α)
  | fail
  | raised (msg : String)
deriving DecidableEq

/-- The four workflow stages. -/
inductive StageT where
  | wipe | copy | verify | finalize
deriving DecidableEq

/-- How a workflow instance ends. -/
inductive WfOutcome where
  | completed
  | failed
  | raised (msg : String)
deriving DecidableEq

/-- The observable result of (the rest of) one workflow instance: the final
world and manager state, the events emitted, the stages entered in order,
and the outcome. -/
structure WfResult where
  world : World
  mgr : MgrState
  events : List Event
  stages : List StageT
  outcome : WfOutcome

/-- `_clear_media_step`: announce the scan, run `clear_drive` (whose own
callback events are all re-emitted as `info`, prefixed with the device),
then report progress or emit the stage's `error` event. -/
def clear_media_step (w : World) (dev path : String) :
    World × List Event × StepExit Unit :=
  let ev0 : Event := ⟨EventType.progress, dev ++ " 正在掃描磁碟內容..."⟩
  match clear_drive w path with
  | .error e => (w, [ev0], StepExit.raised e)
  | .ok r =>
      let wrapped := r.events.map (fun e =>
        (⟨EventType.info, dev ++ " " ++ e.msg⟩ : Event))
      if r.ok then
        (r.world, ev0 :: wrapped ++
          [⟨EventType.progress, dev ++ " 清空完成，準備複製檔案"⟩], StepExit.pass ())
      else
        (r.world, ev0 :: wrapped ++
          [⟨EventType.error, dev ++ " 清空失敗：" ++ r.msg⟩], StepExit.fail)

/-- The announcement event at the head of `_copy_file_step` (with the
filename `os.path.basename(self.source_file)` inlined). -/
def copyEv0 (dev src : String) (ssz : Nat) : Event :=
  ⟨EventType.progress,
   dev ++ " 正在複製檔案：" ++ basename src ++ "（" ++ toString ssz ++ " bytes）"⟩

/-- `_copy_file_step`: read `self.source_file` (a `TypeError` escapes when
it is Python `None`), stat it outside any `try` (an escape when missing),
then copy and report.  Passing yields the filename used. -/
def copy_file_step (w : World) (s : MgrState) (dev path : String) :
    World × List Event × StepExit String :=
  match s.source_file with
  | none => (w, [], StepExit.raised ("expected str, bytes or os.PathLike object, not NoneType"))
  | some src =>
      match getsize w src with
      | .error e => (w, [], StepExit.raised e)
      | .ok ssz =>
          match copy_file_to_drive w src path (some (basename src)) with
          | .error e => (w, [copyEv0 dev src ssz], StepExit.raised e)
          | .ok r =>
              if r.ok then
                (r.world, [copyEv0 dev src ssz,
                    ⟨EventType.progress, dev ++ " 複製完成：" ++ basename src⟩],
                 StepExit.pass (basename src))
              else
                (r.world, [copyEv0 dev src ssz,
                    ⟨EventType.error, dev ++ " 複製失敗：" ++ r.msg⟩],
                 StepExit.fail)

/-- The announcement event at the head of `_verify_file_step`. -/
def verifyEv0 (dev : String) : Event :=
  ⟨EventType.progress, dev ++ " 正在驗證檔案完整性..."⟩

/-- `_verify_file_step`: announce, run `verify_file` against the (shared,
possibly `None`) `self.source_file`, then stat the target outside any `try`
for the success message. -/
def verify_file_step (w : World) (s : MgrState) (dev path fn : String) :
    List Event × StepExit Unit :=
  match verify_file w s.source_file (pjoin path fn) with
  | .error e => ([verifyEv0 dev], StepExit.raised e)
  | .ok r =>
      if r.1 then
        match getsize w (pjoin path fn) with
        | .error e => ([verifyEv0 dev], StepExit.raised e)
        | .ok tsz =>
            ([verifyEv0 dev, ⟨EventType.progress,
                dev ++ " 驗證成功：檔案大小 " ++ toString tsz ++ " bytes，完整性確認"⟩],
             StepExit.pass ())
      else ([verifyEv0 dev, ⟨EventType.error, dev ++ " 驗證失敗：" ++ r.2⟩],
            StepExit.fail)

/-- `_complete_processing`: add the device to `completed_drives` and emit
the `complete` event. -/
def complete_processing (s : MgrState) (dev : String) : MgrState × Event :=
  ({s with completed_drives := insert dev s.completed_drives},
   ⟨EventType.complete,
    dev ++ " 處理完成，請手動執行安全移除（系統托盤→安全移除硬體→" ++ dev ++ "）"⟩)

/-- The workflow resumed just before its finalize stage. -/
def wf_from_finalize (w : World) (s : MgrState) (dev : String) : WfResult :=
  let c := complete_processing s dev
  ⟨w, c.1, [c.2], [StageT.finalize], WfOutcome.completed⟩

/-- The workflow resumed just before its verify stage. -/
def wf_from_verify (w : World) (s : MgrState) (dev path fn : String) : WfResult :=
  let st := verify_file_step w s dev path fn
  match st.2 with
  | StepExit.raised m => ⟨w, s, st.1, [StageT.verify], WfOutcome.raised m⟩
  | StepExit.fail => ⟨w, s, st.1, [StageT.verify], WfOutcome.failed⟩
  | StepExit.pass _ =>
      let r := wf_from_finalize w s dev
      ⟨r.world, r.mgr, st.1 ++ r.events, StageT.verify :: r.stages, r.outcome⟩

/-- The workflow resumed just before its copy stage (the first point at
which the shared `source_file` is read again). -/
def wf_from_copy (w : World) (s : MgrState) (dev path : String) : WfResult :=
  let st := copy_file_step w s dev path
  match st.2.2 with
  | StepExit.raised m => ⟨st.1, s, st.2.1, [StageT.copy], WfOutcome.raised m⟩
  | StepExit.fail => ⟨st.1, s, st.2.1, [StageT.copy], WfOutcome.failed⟩
  | StepExit.pass fn =>
      let r := wf_from_verify st.1 s dev path fn
      ⟨r.world, r.mgr, st.2.1 ++ r.events, StageT.copy :: r.stages, r.outcome⟩

/-- `_process_drive_workflow`: start event, then the four stages in order,
stopping at the first failure or escape. -/
def process_drive_workflow (w : World) (s : MgrState) (dev path : String) :
    WfResult :=
  let ev0 : Event := ⟨EventType.start, "開始處理 " ++ dev⟩
  let st := clear_media_step w dev path
  match st.2.2 with
  | StepExit.raised m => ⟨st.1, s, ev0 :: st.2.1, [StageT.wipe], WfOutcome.raised m⟩
  | StepExit.fail => ⟨st.1, s, ev0 :: st.2.1, [StageT.wipe], WfOutcome.failed⟩
  | StepExit.pass _ =>
      let r := wf_from_copy st.1 s dev path
      ⟨r.world, r.mgr, ev0 :: st.2.1 ++ r.events, StageT.wipe :: r.stages, r.outcome⟩

/-- `_auto_process_drive`: add the device to `processing_drives`, resolve
its mount path (a falsy path yields the path error event), run the
workflow; the `except` clause turns an escaped exception into one `error`
event, and the `finally` clause discards the device from
`processing_drives` whatever happened. -/
def auto_process_drive (w : World) (s : MgrState) (dev : String) : WfResult :=
  let s1 := {s with processing_drives := insert dev s.processing_drives}
  let r :=
    match get_drive_path w dev with
    | none => (⟨w, s1, [⟨EventType.error, dev ++ " 無法取得磁碟機路徑"⟩], [],
                WfOutcome.failed⟩ : WfResult)
    | some path =>
        if path = "" then
          ⟨w, s1, [⟨EventType.error, dev ++ " 無法取得磁碟機路徑"⟩], [],
           WfOutcome.failed⟩
        else
          let r0 := process_drive_workflow w s1 dev path
          match r0.outcome with
          | WfOutcome.raised m =>
              {r0 with events := r0.events ++
                [(⟨EventType.error, dev ++ " 處理錯誤：" ++ m⟩ : Event)]}
          | _ => r0
  {r with mgr := {r.mgr with processing_drives := r.mgr.processing_drives.erase dev}}

/-- A world with one removable partition `D:` mounted at `/mnt/d` (an empty,
readable drive) and a 5-byte source file, copies faithful. -/
def cexWorld : World :=
  { fs := [("/mnt/d", Node.dir [] true false), ("/src/a.wav", Node.file 5 false)],
    parts := [{device := "D:", mountpoint := "/mnt/d", opts_removable := true}],
    copyFault := fun _ _ => CopyFault.fine }

/-- The manager state of an armed batch run whose workflow for `D:` is in
flight (the device already in `processing_drives`, wipe done). -/
def cexState : MgrState :=
  { known_drives := {"D:"}, batch_mode := true,
    source_file := some ("/src/a.wav"), processing_drives := {"D:"},
    completed_drives := ∅, auto_process_queue := ["D:"] }

/-- A world with an empty readable drive at `/mnt/f`. -/
def emptyDriveWorld : World :=
  { fs := [("/mnt/f", Node.dir [] true false)], parts := [],
    copyFault := fun _ _ => CopyFault.fine }

/-- A world whose copies truncate to 3 bytes: source `/src/b.wav` is 5
bytes, the drive `/mnt/e` is empty. -/
def truncWorld : World :=
  { fs := [("/mnt/e", Node.dir [] true false), ("/src/b.wav", Node.file 5 false)],
    parts := [], copyFault := fun _ _ => CopyFault.truncate 3 }

/-- Did an `Except`-typed call return (rather than raise)? -/
def exOk {α : Type} : Except String α → Bool
  | .ok _ => true
  | .error _ => false

/-- The success flag of a `clear_drive` result (`false` for an escape). -/
def clearOk : Except String ClearRes → Bool
  | .ok r => r.ok
  | .error _ => false

/-- The success flag of a `verify_file` result (`false` for an escape). -/
def verOk : Except String (Bool × String) → Bool
  | .ok r => r.1
  | .error _ => false

/-- The number of `error` events in a trace. -/
def errCount (l : List Event) : Nat :=
  (l.filter (fun e => decide (e.etype = EventType.error))).length

/-- The full stage order of one workflow instance. -/
def fullStages : List StageT :=
  [StageT.wipe, StageT.copy, StageT.verify, StageT.finalize]

/-- A trace that ends in exactly one `error` event, nothing after it and
none before. -/
def endsWithOneError (l : List Event) : Prop :=
  ∃ l' e, l = l' ++ [e] ∧ e.etype = EventType.error ∧ errCount l' = 0

theorem errCount_nil : errCount [] = 0 := rfl

theorem errCount_cons (e : Event) (l : List Event) :
    errCount (e :: l) =
      (if e.etype = EventType.error then 1 else 0) + errCount l := by
  by_cases h : e.etype = EventType.error <;>
    simp [errCount, List.filter_cons, h, Nat.add_comm]

theorem errCount_append (a b : List Event) :
    errCount (a ++ b) = errCount a + errCount b := by
  simp [errCount, List.filter_append]

theorem errCount_wrapInfo (dev : String) (l : List Event) :
    errCount (l.map (fun e => (⟨EventType.info, dev ++ " " ++ e.msg⟩ : Event))) = 0 := by
  induction l with
  | nil => rfl
  | cons e t ih =>
      rw [List.map_cons, errCount_cons]
      simpa using ih

theorem endsWithOneError_single (e : Event) (he : e.etype = EventType.error) :
    endsWithOneError [e] :=
  ⟨[], e, rfl, he, rfl⟩

theorem endsWithOneError_cons (a : Event) (l : List Event)
    (ha : ¬(a.etype = EventType.error)) (h : endsWithOneError l) :
    endsWithOneError (a :: l) := by
  obtain ⟨l', e, rfl, he, hl⟩ := h
  exact ⟨a :: l', e, rfl, he, by simp [errCount_cons, ha, hl]⟩

theorem endsWithOneError_append (pre l : List Event) (hpre : errCount pre = 0)
    (h : endsWithOneError l) : endsWithOneError (pre ++ l) := by
  obtain ⟨l', e, rfl, he, hl⟩ := h
  exact ⟨pre ++ l', e, by simp, he, by simp [errCount_append, hpre, hl]⟩

theorem endsWithOneError_wrap_concat (dev : String) (l : List Event) (e : Event)
    (he : e.etype = EventType.error) :
    endsWithOneError
      (l.map (fun x => (⟨EventType.info, dev ++ " " ++ x.msg⟩ : Event)) ++ [e]) :=
  ⟨_, e, rfl, he, errCount_wrapInfo dev l⟩

theorem endsWithOneError_errCount (l : List Event) (h : endsWithOneError l) :
    errCount l = 1 := by
  obtain ⟨l', e, rfl, he, hl⟩ := h
  simp [errCount_append, errCount_cons, errCount_nil, he, hl]

theorem clear_media_step_pass_events (w w1 : World) (dev path : String)
    (evs : List Event)
    (h : clear_media_step w dev path = (w1, evs, StepExit.pass ())) :
    errCount evs = 0 := by
  unfold clear_media_step at h
  split at h
  · simp at h
  · split at h
    · rw [Prod.mk.injEq, Prod.mk.injEq] at h
      obtain ⟨h1, h2, h3⟩ := h
      subst h2
      simp [errCount_cons, errCount_append, errCount_wrapInfo, errCount_nil]
    · simp at h

theorem clear_media_step_fail_events (w w1 : World) (dev path : String)
    (evs : List Event)
    (h : clear_media_step w dev path = (w1, evs, StepExit.fail)) :
    endsWithOneError evs := by
  unfold clear_media_step at h
  split at h
  · simp at h
  · split at h
    · simp at h
    · rw [Prod.mk.injEq, Prod.mk.injEq] at h
      obtain ⟨h1, h2, h3⟩ := h
      subst h2
      refine endsWithOneError_cons _ _ (by simp) ?_
      exact endsWithOneError_wrap_concat dev _ _ rfl

theorem clear_media_step_raised_events (w w1 : World) (dev path : String)
    (evs : List Event) (m : String)
    (h : clear_media_step w dev path = (w1, evs, StepExit.raised m)) :
    errCount evs = 0 := by
  unfold clear_media_step at h
  split at h
  · rw [Prod.mk.injEq, Prod.mk.injEq] at h
    obtain ⟨h1, h2, h3⟩ := h
    subst h2
    simp [errCount_cons, errCount_nil]
  · split at h <;> simp at h

theorem copy_file_step_pass_events (w w1 : World) (s : MgrState) (dev path fn : String)
    (evs : List Event)
    (h : copy_file_step w s dev path = (w1, evs, StepExit.pass fn)) :
    errCount evs = 0 := by
  unfold copy_file_step at h
  split at h
  · simp at h
  · split at h
    · simp at h
    · split at h
      · simp at h
      · split at h
        · rw [Prod.mk.injEq, Prod.mk.injEq] at h
          obtain ⟨h1, h2, h3⟩ := h
          subst h2
          simp [errCount_cons, errCount_nil, copyEv0]
        · simp at h

theorem copy_file_step_fail_events (w w1 : World) (s : MgrState) (dev path : String)
    (evs : List Event)
    (h : copy_file_step w s dev path = (w1, evs, StepExit.fail)) :
    endsWithOneError evs := by
  unfold copy_file_step at h
  split at h
  · simp at h
  · split at h
    · simp at h
    · split at h
      · simp at h
      · split at h
        · simp at h
        · rw [Prod.mk.injEq, Prod.mk.injEq] at h
          obtain ⟨h1, h2, h3⟩ := h
          subst h2
          refine endsWithOneError_cons _ _ (by simp [copyEv0]) ?_
          exact endsWithOneError_single _ rfl

theorem copy_file_step_raised_events (w w1 : World) (s : MgrState) (dev path m : String)
    (evs : List Event)
    (h : copy_file_step w s dev path = (w1, evs, StepExit.raised m)) :
    errCount evs = 0 := by
  unfold copy_file_step at h
  split at h
  · rw [Prod.mk.injEq, Prod.mk.injEq] at h
    obtain ⟨h1, h2, h3⟩ := h
    subst h2
    rfl
  · split at h
    · rw [Prod.mk.injEq, Prod.mk.injEq] at h
      obtain ⟨h1, h2, h3⟩ := h
      subst h2
      rfl
    · split at h
      · rw [Prod.mk.injEq, Prod.mk.injEq] at h
        obtain ⟨h1, h2, h3⟩ := h
        subst h2
        simp [errCount_cons, errCount_nil, copyEv0]
      · split at h <;> simp at h

theorem verify_file_step_pass_events (w : World) (s : MgrState) (dev path fn : String)
    (evs : List Event)
    (h : verify_file_step w s dev path fn = (evs, StepExit.pass ())) :
    errCount evs = 0 := by
  unfold verify_file_step at h
  split at h
  · simp at h
  · split at h
    · split at h
      · simp at h
      · rw [Prod.mk.injEq] at h
        obtain ⟨h1, h2⟩ := h
        subst h1
        simp [errCount_cons, errCount_nil, verifyEv0]
    · simp at h

theorem verify_file_step_fail_events (w : World) (s : MgrState) (dev path fn : String)
    (evs : List Event)
    (h : verify_file_step w s dev path fn = (evs, StepExit.fail)) :
    endsWithOneError evs := by
  unfold verify_file_step at h
  split at h
  · simp at h
  · split at h
    · split at h <;> simp at h
    · rw [Prod.mk.injEq] at h
      obtain ⟨h1, h2⟩ := h
      subst h1
      refine endsWithOneError_cons _ _ (by simp [verifyEv0]) ?_
      exact endsWithOneError_single _ rfl

theorem verify_file_step_raised_events (w : World) (s : MgrState) (dev path fn m : String)
    (evs : List Event)
    (h : verify_file_step w s dev path fn = (evs, StepExit.raised m)) :
    errCount evs = 0 := by
  unfold verify_file_step at h
  split at h
  · rw [Prod.mk.injEq] at h
    obtain ⟨h1, h2⟩ := h
    subst h1
    simp [errCount_cons, errCount_nil, verifyEv0]
  · split at h
    · split at h
      · rw [Prod.mk.injEq] at h
        obtain ⟨h1, h2⟩ := h
        subst h1
        simp [errCount_cons, errCount_nil, verifyEv0]
      · simp at h
    · simp at h

theorem wf_from_finalize_processing (w : World) (s : MgrState) (dev : String) :
    (wf_from_finalize w s dev).mgr.processing_drives = s.processing_drives := rfl

theorem wf_from_verify_processing (w : World) (s : MgrState) (dev path fn : String) :
    (wf_from_verify w s dev path fn).mgr.processing_drives = s.processing_drives := by
  unfold wf_from_verify
  dsimp only
  split <;> rfl

theorem wf_from_copy_processing (w : World) (s : MgrState) (dev path : String) :
    (wf_from_copy w s dev path).mgr.processing_drives = s.processing_drives := by
  unfold wf_from_copy
  dsimp only
  split <;> simp [wf_from_verify_processing]

theorem pdw_processing (w : World) (s : MgrState) (dev path : String) :
    (process_drive_workflow w s dev path).mgr.processing_drives
      = s.processing_drives := by
  unfold process_drive_workflow
  dsimp only
  split <;> simp [wf_from_copy_processing]

theorem should_process_drive_queue (st : MgrState) (q : List String) (d : String) :
    should_process_drive {st with auto_process_queue := q} d
      = should_process_drive st d := rfl

theorem hdc_foldl_spec (l : List String) :
    ∀ (st : MgrState) (acc : List String),
      (List.foldl hdc_step (st, acc) l).2
          = acc ++ l.filter (fun d => should_process_drive st d) ∧
      (List.foldl hdc_step (st, acc) l).1.known_drives = st.known_drives ∧
      (List.foldl hdc_step (st, acc) l).1.batch_mode = st.batch_mode ∧
      (List.foldl hdc_step (st, acc) l).1.source_file = st.source_file ∧
      (List.foldl hdc_step (st, acc) l).1.processing_drives = st.processing_drives ∧
      (List.foldl hdc_step (st, acc) l).1.completed_drives = st.completed_drives := by
  induction l with
  | nil => intro st acc; simp
  | cons d rest ih =>
      intro st acc
      rw [List.foldl_cons, List.filter_cons]
      by_cases h : should_process_drive st d = true
      · rw [show hdc_step (st, acc) d =
            ({st with auto_process_queue := st.auto_process_queue ++ [d]}, acc ++ [d])
          from by simp [hdc_step, h]]
        have hrec := ih {st with auto_process_queue := st.auto_process_queue ++ [d]}
          (acc ++ [d])
        simp only [should_process_drive_queue] at hrec
        simpa [h, List.append_assoc] using hrec
      · rw [show hdc_step (st, acc) d = (st, acc) from by simp [hdc_step, h]]
        simpa [h] using ih st acc

theorem handle_known (s : MgrState) (nd : Finset String) :
    (handle_drive_changes s nd).1.known_drives = s.known_drives := by
  unfold handle_drive_changes
  split
  · exact (hdc_foldl_spec _ s []).2.1
  · rfl

theorem wfv_spec (w : World) (s : MgrState) (dev path fn : String) :
    (∃ rest, (wf_from_verify w s dev path fn).stages ++ rest
        = [StageT.verify, StageT.finalize]) ∧
    ((wf_from_verify w s dev path fn).outcome = WfOutcome.completed ↔
      (wf_from_verify w s dev path fn).stages = [StageT.verify, StageT.finalize]) ∧
    (match (wf_from_verify w s dev path fn).outcome with
     | WfOutcome.completed => errCount (wf_from_verify w s dev path fn).events = 0
     | WfOutcome.failed => endsWithOneError (wf_from_verify w s dev path fn).events
     | WfOutcome.raised _ => errCount (wf_from_verify w s dev path fn).events = 0) := by
  rcases hv : verify_file_step w s dev path fn with ⟨evs, ex⟩
  unfold wf_from_verify
  rw [hv]
  dsimp only
  cases ex with
  | raised m =>
      exact ⟨⟨[StageT.finalize], rfl⟩, by simp,
        verify_file_step_raised_events w s dev path fn m evs hv⟩
  | fail =>
      exact ⟨⟨[StageT.finalize], rfl⟩, by simp,
        verify_file_step_fail_events w s dev path fn evs hv⟩
  | pass u =>
      cases u
      dsimp only [wf_from_finalize, complete_processing]
      refine ⟨⟨[], by simp⟩, by simp, ?_⟩
      have h0 := verify_file_step_pass_events w s dev path fn evs hv
      simp [errCount_append, errCount_cons, errCount_nil, h0]

theorem wfc_spec (w : World) (s : MgrState) (dev path : String) :
    (∃ rest, (wf_from_copy w s dev path).stages ++ rest
        = [StageT.copy, StageT.verify, StageT.finalize]) ∧
    ((wf_from_copy w s dev path).outcome = WfOutcome.completed ↔
      (wf_from_copy w s dev path).stages
        = [StageT.copy, StageT.verify, StageT.finalize]) ∧
    (match (wf_from_copy w s dev path).outcome with
     | WfOutcome.completed => errCount (wf_from_copy w s dev path).events = 0
     | WfOutcome.failed => endsWithOneError (wf_from_copy w s dev path).events
     | WfOutcome.raised _ => errCount (wf_from_copy w s dev path).events = 0) := by
  rcases hc : copy_file_step w s dev path with ⟨w1, evs, ex⟩
  unfold wf_from_copy
  rw [hc]
  dsimp only
  cases ex with
  | raised m =>
      exact ⟨⟨[StageT.verify, StageT.finalize], rfl⟩, by simp,
        copy_file_step_raised_events w w1 s dev path m evs hc⟩
  | fail =>
      exact ⟨⟨[StageT.verify, StageT.finalize], rfl⟩, by simp,
        copy_file_step_fail_events w w1 s dev path evs hc⟩
  | pass fn =>
      dsimp only
      obtain ⟨⟨rest, hrest⟩, hiff, hmatch⟩ := wfv_spec w1 s dev path fn
      have h0 := copy_file_step_pass_events w w1 s dev path fn evs hc
      refine ⟨⟨rest, by simp [hrest]⟩, ?_, ?_⟩
      · rw [hiff]
        constructor
        · intro hs; rw [hs]
        · intro hs
          exact (List.cons.injEq .. ▸ hs).2
      · rcases ho : (wf_from_verify w1 s dev path fn).outcome with _ | _ | m <;>
          rw [ho] at hmatch <;> dsimp only
        · simp [errCount_append, h0, hmatch]
        · exact endsWithOneError_append evs _ h0 hmatch
        · simp [errCount_append, h0, hmatch]

theorem pdw_spec (w : World) (s : MgrState) (dev path : String) :
    (∃ rest, (process_drive_workflow w s dev path).stages ++ rest = fullStages) ∧
    ((process_drive_workflow w s dev path).outcome = WfOutcome.completed ↔
      (process_drive_workflow w s dev path).stages = fullStages) ∧
    (match (process_drive_workflow w s dev path).outcome with
     | WfOutcome.completed => errCount (process_drive_workflow w s dev path).events = 0
     | WfOutcome.failed => endsWithOneError (process_drive_workflow w s dev path).events
     | WfOutcome.raised _ =>
        errCount (process_drive_workflow w s dev path).events = 0) := by
  rcases hc : clear_media_step w dev path with ⟨w1, evs, ex⟩
  unfold process_drive_workflow
  rw [hc]
  dsimp only
  cases ex with
  | raised m =>
      refine ⟨⟨[StageT.copy, StageT.verify, StageT.finalize], rfl⟩,
        by simp [fullStages], ?_⟩
      have h0 := clear_media_step_raised_events w w1 dev path evs m hc
      simp [errCount_cons, h0]
  | fail =>
      refine ⟨⟨[StageT.copy, StageT.verify, StageT.finalize], rfl⟩,
        by simp [fullStages], ?_⟩
      exact endsWithOneError_cons _ _ (by simp)
        (clear_media_step_fail_events w w1 dev path evs hc)
  | pass u =>
      cases u
      dsimp only
      obtain ⟨⟨rest, hrest⟩, hiff, hmatch⟩ := wfc_spec w1 s dev path
      have h0 := clear_media_step_pass_events w w1 dev path evs hc
      refine ⟨⟨rest, by simp [fullStages, hrest]⟩, ?_, ?_⟩
      · rw [hiff]
        constructor
        · intro hs; rw [hs]; rfl
        · intro hs
          exact (List.cons.injEq .. ▸ hs).2
      · rcases ho : (wf_from_copy w1 s dev path).outcome with _ | _ | m <;>
          rw [ho] at hmatch <;> dsimp only
        · simp [errCount_cons, errCount_append, h0, hmatch]
        · refine endsWithOneError_cons _ _ (by simp) ?_
          exact endsWithOneError_append evs _ h0 hmatch
        · simp [errCount_cons, errCount_append, h0, hmatch]

/-- C1: at-most-once workflow per arming cycle.  For every insertion event,
`_handle_drive_changes` starts a workflow for a drive exactly when batch
mode is on, the source file is set, the drive is among the newly inserted
ones, and the drive is in neither `processing_drives` nor
`completed_drives`; in particular an identifier already in either set is
never queued again by a later insertion event. -/
theorem c1_requeue_guard : ∀ (s : MgrState) (nd : Finset String) (d : String),
    d ∈ (handle_drive_changes s nd).2 ↔
      (s.batch_mode = true ∧ optTruthy s.source_file = true ∧ d ∈ nd ∧
       d ∉ s.processing_drives ∧ d ∉ s.completed_drives) := by
  intro s nd d
  unfold handle_drive_changes
  split
  · rename_i harm
    obtain ⟨hb, hne, hsf⟩ := harm
    rw [(hdc_foldl_spec _ s []).1]
    simp only [List.nil_append, List.mem_filter, Finset.mem_sort,
      should_process_drive, Bool.and_eq_true, decide_eq_true_eq, hb, hsf, true_and]
  · rename_i harm
    constructor
    · intro hx
      simp at hx
    · rintro ⟨hb, hsf, hd, _, _⟩
      exact absurd ⟨hb, ⟨d, hd⟩, hsf⟩ harm

/-- C3: `verify_file` succeeds exactly when the target file exists and the
source and target stat to equal byte sizes; a missing target or any size
difference (in particular a one-byte-short target) fails, and no content is
compared (the model carries only sizes). -/
theorem c3_verify_iff_sizes : ∀ (w : World) (src tgt : String),
    verOk (verify_file w (some src) tgt) = true ↔
      (pexists w tgt = true ∧
       ∃ n, getsize w src = Except.ok n ∧ getsize w tgt = Except.ok n) := by
  intro w src tgt
  unfold verOk verify_file verify_body getsizeOpt
  rcases hpe : pexists w tgt with _ | _
  · simp [hpe]
  · simp only [hpe]
    rcases hs : getsize w src with e | ss
    · simp
    · rcases ht : getsize w tgt with e | ts
      · simp
      · by_cases hst : ss = ts
        · subst hst
          simp
        · simp only [hst]
          constructor
          · intro hx
            simp [hst] at hx
          · rintro ⟨_, n, h1, h2⟩
            rw [Except.ok.injEq] at h1 h2
            exact absurd (h1.trans h2.symm) hst

/-- C4: for every poll, with `P` the previous `known_drives` and `A` the
currently enumerated set, the inserted set is `A \ P`, the removed set is
`P \ A`, and after the cycle `known_drives` equals `A` exactly (replaced
wholesale when anything changed, and already equal to `A` otherwise). -/
theorem c4_poll_diff : ∀ (w : World) (s : MgrState),
    (detect_drive_changes s (get_current_removable_drives w)).1
        = get_current_removable_drives w \ s.known_drives ∧
    (detect_drive_changes s (get_current_removable_drives w)).2
        = s.known_drives \ get_current_removable_drives w ∧
    (monitor_cycle w s).1.known_drives = get_current_removable_drives w := by
  intro w s
  refine ⟨rfl, rfl, ?_⟩
  unfold monitor_cycle
  dsimp only
  split
  · rw [handle_known]
  · rename_i h
    push_neg at h
    obtain ⟨h1, h2⟩ := h
    dsimp only [detect_drive_changes] at h1 h2
    exact (Finset.Subset.antisymm
      (Finset.sdiff_eq_empty_iff_subset.mp h2)
      (Finset.sdiff_eq_empty_iff_subset.mp h1))

/-- C6: whatever the outcome (success, stage failure, path-resolution
failure or an escaped exception), `_auto_process_drive` ends with its
device removed from `processing_drives` (the `finally` clause), and no
other device's membership changes. -/
theorem c6_processing_released : ∀ (w : World) (s : MgrState) (dev : String),
    (auto_process_drive w s dev).mgr.processing_drives
      = s.processing_drives.erase dev := by
  intro w s dev
  unfold auto_process_drive
  dsimp only
  split
  · exact Finset.erase_insert_eq_erase ..
  · split
    · exact Finset.erase_insert_eq_erase ..
    · split
      · rw [pdw_processing]
        exact Finset.erase_insert_eq_erase ..
      · rw [pdw_processing]
        exact Finset.erase_insert_eq_erase ..

/-- C8: `clear_drive` on a mount path that exists and whose root listing is
empty succeeds immediately with the already-empty no-op result, deletes
nothing (the world is unchanged), and emits only the already-empty info
event. -/
theorem c8_empty_wipe_noop : ∀ (w : World) (p : String),
    pexists w p = true → listdir w p = Except.ok [] →
    clear_drive w p = Except.ok ⟨w, true, "磁碟機已經是空的",
      [⟨EventType.info, "磁碟機 " ++ p ++ " 已經是空的"⟩]⟩ := by
  intro w p hp hl
  unfold clear_drive scan_drive_items
  rw [hl]
  simp [hp]

/-- Witness for C8 at a concrete world with an empty readable drive. -/
theorem c8_empty_wipe_noop_witness :
    clear_drive emptyDriveWorld ("/mnt/f") = Except.ok ⟨emptyDriveWorld, true,
      "磁碟機已經是空的",
      [⟨EventType.info, "磁碟機 " ++ "/mnt/f" ++ " 已經是空的"⟩]⟩ :=
  c8_empty_wipe_noop emptyDriveWorld ("/mnt/f") rfl rfl

/-- C10: the three public operations never let an exception escape to the
caller: for every world and every input, `clear_drive`,
`copy_file_to_drive` and `verify_file` return a value (the `Except.error`
case, which models an escaping Python exception, is unreachable — every
internal failure is caught and turned into a `(False, message)` result). -/
theorem c10_no_escape : ∀ (w : World) (p src drv : String) (fn vs : Option String)
    (vt : String),
    exOk (clear_drive w p) = true ∧
    exOk (copy_file_to_drive w src drv fn) = true ∧
    exOk (verify_file w vs vt) = true := by
  intro w p src drv fn vs vt
  refine ⟨?_, rfl, rfl⟩
  unfold clear_drive
  split
  · rfl
  · split
    · rfl
    · split
      · rfl
      · rfl

/-- C5: within one workflow instance the stages entered are always a prefix
of Wipe, Copy, Verify, Finalize (no retries, no reordering); the instance
completes exactly when all four ran; and a non-completed instance emits
exactly one `error` event, as the last event of its trace, with no error
event before it. -/
theorem c5_stage_order : ∀ (w : World) (s : MgrState) (dev : String),
    (∃ rest, (auto_process_drive w s dev).stages ++ rest = fullStages) ∧
    ((auto_process_drive w s dev).outcome = WfOutcome.completed ↔
      (auto_process_drive w s dev).stages = fullStages) ∧
    (match (auto_process_drive w s dev).outcome with
     | WfOutcome.completed => errCount (auto_process_drive w s dev).events = 0
     | _ => endsWithOneError (auto_process_drive w s dev).events) := by
  intro w s dev
  unfold auto_process_drive
  dsimp only
  split
  · exact ⟨⟨fullStages, rfl⟩, by simp [fullStages],
      endsWithOneError_single _ rfl⟩
  · split
    · exact ⟨⟨fullStages, rfl⟩, by simp [fullStages],
        endsWithOneError_single _ rfl⟩
    · rename_i path heq hne
      obtain ⟨⟨rest, hrest⟩, hiff, hmatch⟩ :=
        pdw_spec w {s with processing_drives := insert dev s.processing_drives} dev path
      split
      · rename_i m hout
        dsimp only
        rw [hout] at hmatch hiff
        dsimp only at hmatch
        refine ⟨⟨rest, hrest⟩, ?_, ?_⟩
        · rw [hout]
          constructor
          · intro hcon
            cases hcon
          · intro hst
            cases hiff.mpr hst
        · rw [hout]
          exact endsWithOneError_append _ _ hmatch (endsWithOneError_single _ rfl)
      · rename_i hout
        refine ⟨⟨rest, hrest⟩, hiff, ?_⟩
        rcases ho : (process_drive_workflow w
            {s with processing_drives := insert dev s.processing_drives}
            dev path).outcome with _ | _ | m
        · rw [ho] at hmatch
          exact hmatch
        · rw [ho] at hmatch
          exact hmatch
        · exact (hout m ho).elim

/-- C7: the wipe is best-effort.  (1) `clear_drive` reports success exactly
when the mount path exists and its root can be listed — individual deletion
failures never fail the stage.  (2) The deletion loop counts every item as
either a success or a collected failure.  (3) `_check_remaining_items`
re-lists the mount root and emits exactly one warning when entries remain
and none otherwise. -/
theorem c7_wipe_best_effort :
    (∀ (w : World) (p : String),
        clearOk (clear_drive w p) = true ↔
          (pexists w p = true ∧ exOk (listdir w p) = true)) ∧
    (∀ (w : World) (p : String) (items : List String),
        (delete_loop w p items).count + (delete_loop w p items).failed.length
          = items.length) ∧
    (∀ (w : World) (p : String),
        (check_remaining_items w p).1 = ((listdir w p).toOption.getD []) ∧
        (check_remaining_items w p).2.map Event.etype
          = (if (check_remaining_items w p).1.isEmpty then []
             else [EventType.warning])) := by
  refine ⟨?_, ?_, ?_⟩
  · intro w p
    unfold clearOk clear_drive scan_drive_items
    rcases hp : pexists w p with _ | _
    · simp [hp]
    · rcases hl : listdir w p with e | items
      · simp [hl, exOk]
      · rcases items with _ | ⟨i, rest⟩
        · simp [exOk]
        · simp [exOk, delete_items, finalize_deletion]
  · intro w p items
    induction items generalizing w with
    | nil => rfl
    | cons i rest ih =>
        have hih := ih (delete_single_item w p i).world
        by_cases ho : (delete_single_item w p i).ok = true <;>
          simp [delete_loop, ho] <;> omega
  · intro w p
    unfold check_remaining_items
    rcases hl : listdir w p with e | rem
    · simp [Except.toOption]
    · rcases rem with _ | ⟨r, rest⟩
      · simp [Except.toOption]
      · simp [Except.toOption]

/-- C9: `copy_file_to_drive` performs its own post-copy size check.  (1) A
success result implies the target file exists in the post-copy world with
the same byte size the source stats to.  (2) When source and drive exist,
the copy itself runs, the target exists afterwards but its size differs
from the source's, the call returns failure with the incomplete-copy
message — a truncated copy is rejected at the copy step itself. -/
theorem c9_copy_self_verify :
    (∀ (w : World) (src drv : String) (fn : Option String) (w2 : World) (m : String),
        copy_file_to_drive w src drv fn = Except.ok ⟨w2, true, m⟩ →
        pexists w2 (pjoin drv (fn.getD (basename src))) = true ∧
        ∃ n, getsize w2 src = Except.ok n ∧
             getsize w2 (pjoin drv (fn.getD (basename src))) = Except.ok n) ∧
    (∀ (w : World) (src drv : String) (fn : Option String) (wc : World) (n k : Nat),
        pexists w src = true → pexists w drv = true →
        copy2 w src (pjoin drv (fn.getD (basename src))) = Except.ok wc →
        pexists wc (pjoin drv (fn.getD (basename src))) = true →
        getsize wc src = Except.ok n →
        getsize wc (pjoin drv (fn.getD (basename src))) = Except.ok k →
        ¬(n = k) →
        copy_file_to_drive w src drv fn
          = Except.ok ⟨wc, false, "檔案複製不完整"⟩) := by
  constructor
  · intro w src drv fn w2 m h
    rcases hs : pexists w src with _ | _
    · simp [copy_file_to_drive, copy_body, hs] at h
    · rcases hd : pexists w drv with _ | _
      · simp [copy_file_to_drive, copy_body, hs, hd] at h
      · rcases hc : copy2 w src (pjoin drv (fn.getD (basename src))) with e | w1
        · simp [copy_file_to_drive, copy_body, hs, hd, hc] at h
        · rcases hpt : pexists w1 (pjoin drv (fn.getD (basename src))) with _ | _
          · simp [copy_file_to_drive, copy_body, verify_copy, hs, hd, hc, hpt] at h
          · rcases hgs : getsize w1 src with e | ss
            · simp [copy_file_to_drive, copy_body, verify_copy,
                hs, hd, hc, hpt, hgs] at h
            · rcases hgt : getsize w1 (pjoin drv (fn.getD (basename src))) with e | ts
              · simp [copy_file_to_drive, copy_body, verify_copy,
                  hs, hd, hc, hpt, hgs, hgt] at h
              · by_cases hst : ss = ts
                · simp [copy_file_to_drive, copy_body, verify_copy,
                    hs, hd, hc, hpt, hgs, hgt, hst] at h
                  obtain ⟨hw, hm⟩ := h
                  subst hw
                  exact ⟨hpt, ts, by rw [hgs, hst], hgt⟩
                · simp [copy_file_to_drive, copy_body, verify_copy,
                    hs, hd, hc, hpt, hgs, hgt, hst] at h
  · intro w src drv fn wc n k hs hd hc hpt hgs hgt hnk
    simp [copy_file_to_drive, copy_body, verify_copy,
      hs, hd, hc, hpt, hgs, hgt, hnk]

/-- Witness for C9 at the truncating world: the 5-byte source is copied as
3 bytes, and the copy step itself reports the incomplete copy. -/
theorem c9_copy_self_verify_witness :
    copy_file_to_drive truncWorld ("/src/b.wav") ("/mnt/e") (some ("b.wav"))
      = Except.ok ⟨setFile truncWorld
          (pjoin ("/mnt/e") ((some ("b.wav")).getD (basename ("/src/b.wav")))) 3,
        false, "檔案複製不完整"⟩ :=
  c9_copy_self_verify.2 truncWorld ("/src/b.wav") ("/mnt/e") (some ("b.wav"))
    (setFile truncWorld
      (pjoin ("/mnt/e") ((some ("b.wav")).getD (basename ("/src/b.wav")))) 3)
    5 3 rfl rfl rfl rfl rfl rfl (by decide)

/-- C2 counterexample: in the concrete armed world, the workflow for `D:`
has finished its wipe stage (genuinely in flight); batch mode is then
toggled off; resuming the instance at its copy stage does not complete it
and `D:` is never added to `completed_drives` — the claim that an instance
in flight at the toggle still runs to completion and still lands in
CompletedSet is false on this code. -/
theorem c2_counterexample :
    (clear_media_step cexWorld ("D:") ("/mnt/d")).2.2 = StepExit.pass () ∧
    (wf_from_copy (clear_media_step cexWorld ("D:") ("/mnt/d")).1
        (set_batch_mode cexState false none) ("D:") ("/mnt/d")).outcome
      ≠ WfOutcome.completed ∧
    ("D:") ∉ (wf_from_copy (clear_media_step cexWorld ("D:") ("/mnt/d")).1
        (set_batch_mode cexState false none) ("D:") ("/mnt/d")).mgr.completed_drives := by
  decide

/-- C2 (amended): toggling batch mode off cancels nothing — the next stage
of an in-flight instance still executes — and a volume inserted after the
toggle is never auto-queued; an instance whose remaining work reads the
shared source file no more (only finalize left) still completes and still
records its volume in CompletedSet; but because the toggle also clears the
shared source-file reference, an instance that has not yet passed its
source-file reads raises at its next (copy) stage instead of completing. -/
theorem c2_toggle_semantics : ∀ (w : World) (s : MgrState) (dev path : String)
    (nd : Finset String),
    ((wf_from_finalize w (set_batch_mode s false none) dev).outcome
        = WfOutcome.completed ∧
     dev ∈ (wf_from_finalize w (set_batch_mode s false none) dev).mgr.completed_drives) ∧
    ((handle_drive_changes (set_batch_mode s false none) nd).2 = []) ∧
    ((wf_from_copy w (set_batch_mode s false none) dev path).stages.head?
        = some StageT.copy ∧
     ∃ m, (wf_from_copy w (set_batch_mode s false none) dev path).outcome
        = WfOutcome.raised m) := by
  intro w s dev path nd
  refine ⟨⟨rfl, Finset.mem_insert_self dev _⟩, ?_, rfl, ⟨_, rfl⟩⟩
  unfold handle_drive_changes
  split
  · rename_i hcond
    obtain ⟨hb, _, _⟩ := hcond
    simp [set_batch_mode] at hb
  · rfl

end AudioRepeater
